import Mathlib

/-!
Verification of the session-handle core of crab_trap
(`src/socket/connection.rs`) against its natural-language specification.

The Rust code is shallowly embedded: each iteration of the Input Task loop
and the Output Task loop of `Handle::handle_listen` becomes a pure Lean
function from the current state plus an environment record (the values the
surrounding runtime would deliver: the readline result, the next terminal
event, channel-send successes, broadcast-wait outcomes) to an outcome plus
the ordered list of observable effects the iteration performs.

The `listener` module of the repository is not part of the provided
sources; `wait_for_signal` is modelled from the specification (section 4.3)
and marked as such below.  Everything else is translated directly from
`src/socket/connection.rs`.
-/

/-- Rust `str::trim_end` restricted to the whitespace characters Lean
recognises (space, tab, carriage return, line feed); all inputs relevant to
the claims are ASCII. -/
def trim_end (s : String) : String :=
  String.mk ((s.data.reverse.dropWhile Char.isWhitespace).reverse)

/-- Full trim (both ends), used only to state the spec side of claims that
speak about "the trimmed input". -/
def trim_both (s : String) : String :=
  String.mk (((s.data.dropWhile Char.isWhitespace).reverse.dropWhile Char.isWhitespace).reverse)

/-- The Unicode replacement character emitted by lossy UTF-8 decoding. -/
def replChar : Char := '�'

/-- Is `b` a UTF-8 continuation byte (`0x80 ..= 0xBF`)? -/
def utf8_cont (b : Nat) : Bool := 0x80 ≤ b && b ≤ 0xBF

/-- Model of Rust `String::from_utf8_lossy` (maximal-subpart replacement
policy), with explicit fuel for termination; the fuel is instantiated with
the length of the byte list, which always suffices since every step consumes
at least one byte. -/
def from_utf8_lossy_aux : Nat → List Nat → List Char
  | 0, _ => []
  | _, [] => []
  | fuel + 1, b1 :: rest =>
    if b1 ≤ 0x7F then
      Char.ofNat b1 :: from_utf8_lossy_aux fuel rest
    else if 0xC2 ≤ b1 && b1 ≤ 0xDF then
      match rest with
      | [] => [replChar]
      | b2 :: rest2 =>
        if utf8_cont b2 then
          Char.ofNat ((b1 - 0xC0) <<< 6 + (b2 - 0x80)) :: from_utf8_lossy_aux fuel rest2
        else replChar :: from_utf8_lossy_aux fuel rest
    else if 0xE0 ≤ b1 && b1 ≤ 0xEF then
      match rest with
      | [] => [replChar]
      | b2 :: rest2 =>
        if (if b1 = 0xE0 then 0xA0 ≤ b2 && b2 ≤ 0xBF
            else if b1 = 0xED then 0x80 ≤ b2 && b2 ≤ 0x9F
            else utf8_cont b2) then
          match rest2 with
          | [] => [replChar]
          | b3 :: rest3 =>
            if utf8_cont b3 then
              Char.ofNat ((b1 - 0xE0) <<< 12 + (b2 - 0x80) <<< 6 + (b3 - 0x80)) ::
                from_utf8_lossy_aux fuel rest3
            else replChar :: from_utf8_lossy_aux fuel rest2
        else replChar :: from_utf8_lossy_aux fuel rest
    else if 0xF0 ≤ b1 && b1 ≤ 0xF4 then
      match rest with
      | [] => [replChar]
      | b2 :: rest2 =>
        if (if b1 = 0xF0 then 0x90 ≤ b2 && b2 ≤ 0xBF
            else if b1 = 0xF4 then 0x80 ≤ b2 && b2 ≤ 0x8F
            else utf8_cont b2) then
          match rest2 with
          | [] => [replChar]
          | b3 :: rest3 =>
            if utf8_cont b3 then
              match rest3 with
              | [] => [replChar]
              | b4 :: rest4 =>
                if utf8_cont b4 then
                  Char.ofNat ((b1 - 0xF0) <<< 18 + (b2 - 0x80) <<< 12 +
                      (b3 - 0x80) <<< 6 + (b4 - 0x80)) ::
                    from_utf8_lossy_aux fuel rest4
                else replChar :: from_utf8_lossy_aux fuel rest3
            else replChar :: from_utf8_lossy_aux fuel rest2
        else replChar :: from_utf8_lossy_aux fuel rest
    else
      replChar :: from_utf8_lossy_aux fuel rest

/-- Rust `String::from_utf8_lossy(&bytes).into_owned()`. -/
def from_utf8_lossy (bytes : List Nat) : String :=
  String.mk (from_utf8_lossy_aux bytes.length bytes)

/-- The `termion::clear::CurrentLine` control sequence. -/
def clearCurrentLine : String := "\x1b[2K"

/-- Subset of `termion::event::Key` needed by the claims. -/
inductive Key where
  | charK (c : Char)
  | ctrl (c : Char)
  | alt (c : Char)
  | backspace
  | esc
  | otherK
  deriving DecidableEq, Repr

/-- Subset of `termion::event::Event`: a key event, a mouse event, or an
unsupported byte sequence. -/
inductive Event where
  | keyEv (k : Key)
  | mouseEv
  | unsupportedEv (bytes : List Nat)
  deriving DecidableEq, Repr

/-- `handle_key_input`: the next item of `stdin().events_and_raw()` is
either end of stream (`none`), an error, or an event paired with its raw
bytes; only a key event produces a result. -/
def handle_key_input (key_res : Option (Except Unit (Event × List Nat))) :
    Option (Key × List Nat) :=
  match key_res with
  | some (Except.ok (Event.keyEv k, raw)) => some (k, raw)
  | some (Except.ok (Event.mouseEv, _)) => none
  | some (Except.ok (Event.unsupportedEv _, _)) => none
  | some (Except.error _) => none
  | none => none

/-- Model of `rustyline::error::ReadlineError`. -/
inductive ReadlineError where
  | interrupted
  | eof
  | windowResized
  | io
  deriving DecidableEq, Repr

/-- The rustyline editor, reduced to the state the code observes: its
history. -/
structure Editor where
  history : List String
  deriving DecidableEq, Repr

/-- `Editor::add_history_entry`. -/
def add_history_entry (ed : Editor) (line : String) : Editor :=
  { history := ed.history ++ [line] }

/-- `read_line`: the underlying `reader.readline(&input_prompt)` call is the
oracle argument `raw_content`; on success the entered line is appended to
history and returned with a trailing newline, on failure the error is
propagated unchanged. -/
def read_line (ed : Editor) (prompt : Option String)
    (raw_content : Except ReadlineError String) :
    Editor × Except ReadlineError String :=
  let _input_prompt : String :=
    match prompt with
    | some val => val
    | none => ""
  match raw_content with
  | Except.ok line => (add_history_entry ed line, Except.ok (line ++ "\n"))
  | Except.error e => (ed, Except.error e)

deriving instance DecidableEq for Except

/-- Model of `tokio_util::sync::CancellationToken` state. -/
structure CancellationToken where
  cancelled : Bool
  deriving DecidableEq, Repr

/-- The session `Handle` (fields that carry state: the editor, the
cancellation token, and the input-mode flag; the broadcast sender is a
runtime channel handle with no state of its own). -/
structure Handle where
  rl : Editor
  soc_kill_token : CancellationToken
  raw_mode : Bool
  deriving DecidableEq, Repr

/-- `Handle::new`: fresh editor, fresh token (returned alongside its clone),
and `raw_mode` initialised to `false`. -/
def Handle.new : Handle × CancellationToken :=
  ({ rl := { history := [] },
     soc_kill_token := { cancelled := false },
     raw_mode := false },
   { cancelled := false })

/-- Outcome the runtime would observe for one wait on the Control Signal
Bus: `closed` is true when the bus has been closed (the wait returns an
error), `quitWhileRaw` is true when a `quit` signal was delivered while the
current mode was raw before the expected signal arrived. -/
structure WaitOracle where
  closed : Bool
  quitWhileRaw : Bool
  deriving DecidableEq, Repr

/-- Modelled from the spec: `listener::wait_for_signal` (the `listener`
module is not among the provided sources).  Section 4.3: the call blocks
until the expected signal arrives and returns an error when the bus is
closed; when a `rawModeRef` is supplied and a `quit` signal is received
while the current mode is raw, raw mode is deactivated as a side effect, so
the flag passed by mutable reference can only be turned off, never on.
`none` models the error return; `some r` models a successful return with
`r` the updated value of the raw-mode flag. -/
def wait_for_signal (o : WaitOracle) (raw_mode : Bool) : Option Bool :=
  if o.closed then none else some (raw_mode && !o.quitWhileRaw)

/-- Observable effects of one Input Task loop iteration, in order. -/
inductive Effect where
  | modeNotify (b : Bool)
  | readLineCall (prompt : String)
  | readKeyCall
  | printClear
  | broadcastQuit
  | waitStart
  | sinkSend (s : String)
  deriving DecidableEq, Repr

/-- Outcome of one Input Task loop iteration: continue looping with an
updated raw-mode flag and editor, return from the task, or panic on a
failed `unwrap`. -/
inductive Outcome where
  | next (raw_mode : Bool) (ed : Editor)
  | exit (ed : Editor)
  | panicked (ed : Editor)
  deriving DecidableEq, Repr

/-- The payloads of the `sinkSend` effects, in order: what the transport
sink receives from the iteration. -/
def sinkSends (effs : List Effect) : List String :=
  effs.filterMap fun e =>
    match e with
    | Effect.sinkSend s => some s
    | _ => none

/-- Environment for one line-mode iteration: the published prompt, the
result of the underlying readline call, whether the mode-notification
channel accepts the send, whether the broadcast bus has subscribers,
the oracle for the post-detach wait, and whether the socket sink accepts
sends. -/
structure LineEnv where
  prompt : String
  readRes : Except ReadlineError String
  modeNotifyOk : Bool
  busHasSubscribers : Bool
  wait : WaitOracle
  sinkOk : Bool
  deriving DecidableEq, Repr

/-- One iteration of the Input Task in line mode
(`connection.rs` lines 168-191):
notify raw-off (`unwrap`: panic on failure), read a line with the current
prompt (any error restarts the loop), on `back` (after `trim_end`) print a
clear sequence, broadcast `quit` (`unwrap`), substitute the content with a
newline and wait for `start` (error: return); finally forward the content
(failure: return). -/
def lineIter (raw_mode : Bool) (ed : Editor) (env : LineEnv) :
    Outcome × List Effect :=
  if env.modeNotifyOk = false then
    (Outcome.panicked ed, [Effect.modeNotify false])
  else
    match read_line ed (some env.prompt) env.readRes with
    | (ed1, Except.error _) =>
      (Outcome.next raw_mode ed1,
       [Effect.modeNotify false, Effect.readLineCall env.prompt])
    | (ed1, Except.ok content0) =>
      if trim_end content0 = "back" then
        if env.busHasSubscribers = false then
          (Outcome.panicked ed1,
           [Effect.modeNotify false, Effect.readLineCall env.prompt,
            Effect.printClear, Effect.broadcastQuit])
        else
          match wait_for_signal env.wait raw_mode with
          | none =>
            (Outcome.exit ed1,
             [Effect.modeNotify false, Effect.readLineCall env.prompt,
              Effect.printClear, Effect.broadcastQuit, Effect.waitStart])
          | some raw2 =>
            if env.sinkOk then
              (Outcome.next raw2 ed1,
               [Effect.modeNotify false, Effect.readLineCall env.prompt,
                Effect.printClear, Effect.broadcastQuit, Effect.waitStart,
                Effect.sinkSend "\n"])
            else
              (Outcome.exit ed1,
               [Effect.modeNotify false, Effect.readLineCall env.prompt,
                Effect.printClear, Effect.broadcastQuit, Effect.waitStart,
                Effect.sinkSend "\n"])
      else
        if env.sinkOk then
          (Outcome.next raw_mode ed1,
           [Effect.modeNotify false, Effect.readLineCall env.prompt,
            Effect.sinkSend content0])
        else
          (Outcome.exit ed1,
           [Effect.modeNotify false, Effect.readLineCall env.prompt,
            Effect.sinkSend content0])

/-- Environment for one raw-mode iteration: the next terminal event,
channel/bus availability flags, and the oracle for the post-detach wait. -/
structure RawEnv where
  event : Option (Except Unit (Event × List Nat))
  modeNotifyOk : Bool
  busHasSubscribers : Bool
  wait : WaitOracle
  sinkOk : Bool
  deriving DecidableEq, Repr

/-- One iteration of the Input Task in raw mode
(`connection.rs` lines 192-220):
notify raw-on (`unwrap`), read a key (a `none` restarts the loop); on
Control-B print a clear sequence, broadcast `quit` (`unwrap`), notify
raw-off (`unwrap`), wait for `start` (error: return); if the resumed mode is
no longer raw restart the loop, otherwise re-notify raw-on and forward a
newline (`unwrap`); after the Control-B block the raw bytes of the key are
forwarded unconditionally (`unwrap`) — there is no early continue, so a
Control-B that resumes in raw mode also has its own bytes forwarded. -/
def rawIter (raw_mode : Bool) (ed : Editor) (env : RawEnv) :
    Outcome × List Effect :=
  if env.modeNotifyOk = false then
    (Outcome.panicked ed, [Effect.modeNotify true])
  else
    match handle_key_input env.event with
    | none => (Outcome.next raw_mode ed, [Effect.modeNotify true, Effect.readKeyCall])
    | some (key_val, key_bytes) =>
      if key_val = Key.ctrl 'b' then
        if env.busHasSubscribers = false then
          (Outcome.panicked ed,
           [Effect.modeNotify true, Effect.readKeyCall,
            Effect.printClear, Effect.broadcastQuit])
        else
          match wait_for_signal env.wait raw_mode with
          | none =>
            (Outcome.exit ed,
             [Effect.modeNotify true, Effect.readKeyCall,
              Effect.printClear, Effect.broadcastQuit, Effect.modeNotify false,
              Effect.waitStart])
          | some raw2 =>
            if raw2 = false then
              (Outcome.next raw2 ed,
               [Effect.modeNotify true, Effect.readKeyCall,
                Effect.printClear, Effect.broadcastQuit, Effect.modeNotify false,
                Effect.waitStart])
            else
              if env.sinkOk = false then
                (Outcome.panicked ed,
                 [Effect.modeNotify true, Effect.readKeyCall,
                  Effect.printClear, Effect.broadcastQuit, Effect.modeNotify false,
                  Effect.waitStart, Effect.modeNotify true, Effect.sinkSend "\n"])
              else
                (Outcome.next raw2 ed,
                 [Effect.modeNotify true, Effect.readKeyCall,
                  Effect.printClear, Effect.broadcastQuit, Effect.modeNotify false,
                  Effect.waitStart, Effect.modeNotify true, Effect.sinkSend "\n",
                  Effect.sinkSend (from_utf8_lossy key_bytes)])
      else
        if env.sinkOk then
          (Outcome.next raw_mode ed,
           [Effect.modeNotify true, Effect.readKeyCall,
            Effect.sinkSend (from_utf8_lossy key_bytes)])
        else
          (Outcome.panicked ed,
           [Effect.modeNotify true, Effect.readKeyCall,
            Effect.sinkSend (from_utf8_lossy key_bytes)])

/-- One iteration of the Input Task loop (`if !raw_mode { .. } else { .. }`). -/
def inputIter (raw_mode : Bool) (ed : Editor) (lenv : LineEnv) (renv : RawEnv) :
    Outcome × List Effect :=
  if !raw_mode then lineIter raw_mode ed lenv else rawIter raw_mode ed renv

/-- Rendering by the Output Task: verbatim in raw mode, prefixed with the
clear-current-line sequence and a carriage return in line mode. -/
def renderOutput (raw_mode : Bool) (resp : String) : String :=
  match raw_mode with
  | true => resp
  | false => clearCurrentLine ++ "\r" ++ resp

/-- Rust `str::split("\n")` over the character list: always returns at
least one (possibly empty) segment. -/
def splitNl : List Char → List (List Char)
  | [] => [[]]
  | c :: rest =>
    if c = '\n' then [] :: splitNl rest
    else
      match splitNl rest with
      | [] => [[c]]
      | seg :: segs => (c :: seg) :: segs

/-- The prompt derivation of the Output Task:
`outp.split("\n").last()`, with the (dead) `None` arm mapping to the empty
string. -/
def derivePrompt (outp : String) : String :=
  match (splitNl outp.data).getLast? with
  | some s => String.mk s
  | none => ""

/-- State of the Output Task: whether it is engaged, and its copy of the
raw-mode flag. -/
structure OutState where
  active : Bool
  raw_mode : Bool
  deriving DecidableEq, Repr

/-- The event one active Output Task select iteration handles: new socket
output (with the success flag of the prompt publish), a `quit` signal (or a
bus error, whose result the code discards the same way), or a mode
notification (`none` models a closed mode-notification channel). -/
inductive OutEvent where
  | socketOutput (resp : String) (publishOk : Bool)
  | quitSignal
  | modeNotify (m : Option Bool)
  deriving DecidableEq, Repr

/-- Observable effects of one Output Task iteration. -/
inductive OutEffect where
  | writeStdout (s : String)
  | publishPrompt (s : String)
  | suspendRaw
  | activateRaw
  | printTerminalClosed
  deriving DecidableEq, Repr

/-- One iteration of the Output Task loop (`connection.rs` lines 110-157):
when inactive, wait for `start` (a bus error ends the task); once active,
handle one select arm: render socket output and publish the derived prompt
(a failed publish only restarts the loop), suspend raw mode and go inactive
on `quit`, or toggle the raw terminal on a mode notification (a closed
channel is logged and ignored). -/
def outputIter (st : OutState) (w : WaitOracle) (ev : OutEvent) :
    Option OutState × List OutEffect :=
  let stage : Option OutState :=
    if st.active = false then
      match wait_for_signal w st.raw_mode with
      | none => none
      | some r2 => some { active := true, raw_mode := r2 }
    else some st
  match stage with
  | none => (none, [])
  | some a =>
    match ev with
    | OutEvent.socketOutput resp _publishOk =>
      (some a,
       [OutEffect.writeStdout (renderOutput a.raw_mode resp),
        OutEffect.publishPrompt (derivePrompt (renderOutput a.raw_mode resp))])
    | OutEvent.quitSignal =>
      (some { active := false, raw_mode := false }, [OutEffect.suspendRaw])
    | OutEvent.modeNotify none => (some a, [OutEffect.printTerminalClosed])
    | OutEvent.modeNotify (some b) =>
      (some a, [if b then OutEffect.activateRaw else OutEffect.suspendRaw])

/-- Claim C7: for every prompt, a successful editor read of line `L`
makes `read_line` return `Ok (L ++ "\n")` with `L` appended to the history,
and a failed editor read propagates the error with the editor unchanged. -/
theorem read_line_appends_history_and_newline :
    ∀ (ed : Editor) (p : Option String) (line : String) (e : ReadlineError),
      read_line ed p (Except.ok line) =
        (add_history_entry ed line, Except.ok (line ++ "\n")) ∧
      read_line ed p (Except.error e) = (ed, Except.error e) :=
  fun _ _ _ _ => ⟨rfl, rfl⟩

/-- Claim C8: `handle_key_input` returns `none` exactly on end of stream,
an error, or a non-key event, and returns the decoded key with its raw
bytes exactly on a key event; the four groups of equations below cover
every possible next item of the event stream. -/
theorem handle_key_input_cases :
    handle_key_input none = none ∧
    (∀ e : Unit, handle_key_input (some (Except.error e)) = none) ∧
    (∀ raw : List Nat, handle_key_input (some (Except.ok (Event.mouseEv, raw))) = none) ∧
    (∀ (bs raw : List Nat),
      handle_key_input (some (Except.ok (Event.unsupportedEv bs, raw))) = none) ∧
    (∀ (k : Key) (raw : List Nat),
      handle_key_input (some (Except.ok (Event.keyEv k, raw))) = some (k, raw)) :=
  ⟨rfl, fun _ => rfl, fun _ => rfl, fun _ _ => rfl, fun _ _ => rfl⟩

/-- Claim C1: entering the line `back` in line mode (with the
mode-notification channel open, the bus subscribed, and the bus not closed)
produces exactly the effect sequence that broadcasts `quit`, waits for
`start`, and then forwards the single string of one newline to the
transport sink; in particular the sink payloads of the iteration are
exactly the list containing only a newline. -/
theorem line_detach_substitutes_newline (b : Bool) (ed : Editor) (env : LineEnv)
    (hm : env.modeNotifyOk = true) (hr : env.readRes = Except.ok "back")
    (hb : env.busHasSubscribers = true) (hw : env.wait.closed = false) :
    (lineIter b ed env).snd =
      [Effect.modeNotify false, Effect.readLineCall env.prompt, Effect.printClear,
       Effect.broadcastQuit, Effect.waitStart, Effect.sinkSend "\n"] ∧
    sinkSends (lineIter b ed env).snd = ["\n"] := by
  have ht : trim_end ("back" ++ "\n") = "back" := by decide
  simp only [lineIter, hm, hr, hb, read_line, add_history_entry, ht, wait_for_signal, hw,
    Bool.true_eq_false, if_false, ite_false, ite_true, if_true]
  cases hs : env.sinkOk <;> simp [hs, sinkSends]

/-- Claim C1 witness: the theorem instantiated at the concrete environment
of a `back` line with all channels available. -/
theorem line_detach_substitutes_newline_witness :
    sinkSends (lineIter false { history := [] }
      { prompt := "", readRes := Except.ok "back", modeNotifyOk := true,
        busHasSubscribers := true, wait := { closed := false, quitWhileRaw := false },
        sinkOk := true }).snd = ["\n"] :=
  (line_detach_substitutes_newline false { history := [] }
    { prompt := "", readRes := Except.ok "back", modeNotifyOk := true,
      busHasSubscribers := true, wait := { closed := false, quitWhileRaw := false },
      sinkOk := true } rfl rfl rfl rfl).2

/-- Claim C2 (failing input): in raw mode, with a Control-B key whose raw
byte is `0x02` and a `start` resume that stays in raw mode, the iteration
forwards the newline and then the raw bytes of the Control-B key itself:
the sink receives `"\n"` followed by `"\x02"` (the `if` block at
`connection.rs:200-215` has no trailing `continue`, so control falls
through to the unconditional send at lines 216-219). -/
theorem raw_detach_forwards_ctrl_b_bytes :
    rawIter true { history := [] }
      { event := some (Except.ok (Event.keyEv (Key.ctrl 'b'), [2])),
        modeNotifyOk := true, busHasSubscribers := true,
        wait := { closed := false, quitWhileRaw := false }, sinkOk := true } =
      (Outcome.next true { history := [] },
       [Effect.modeNotify true, Effect.readKeyCall, Effect.printClear,
        Effect.broadcastQuit, Effect.modeNotify false, Effect.waitStart,
        Effect.modeNotify true, Effect.sinkSend "\n", Effect.sinkSend "\x02"]) ∧
    sinkSends (rawIter true { history := [] }
      { event := some (Except.ok (Event.keyEv (Key.ctrl 'b'), [2])),
        modeNotifyOk := true, busHasSubscribers := true,
        wait := { closed := false, quitWhileRaw := false }, sinkOk := true }).snd =
      ["\n", "\x02"] := by
  exact ⟨by decide, by decide⟩

/-- Claim C3 (counterexample): a line read that fails with `Eof` (the
line reader is closed, e.g. terminal hangup) makes the Input Task restart
its loop iteration — the outcome is `next`, not `exit` — contradicting the
claim that reader termination stops the input side. -/
theorem read_error_eof_retries :
    lineIter false { history := [] }
      { prompt := "", readRes := Except.error ReadlineError.eof, modeNotifyOk := true,
        busHasSubscribers := true, wait := { closed := false, quitWhileRaw := false },
        sinkOk := true } =
      (Outcome.next false { history := [] },
       [Effect.modeNotify false, Effect.readLineCall ""]) ∧
    (lineIter false { history := [] }
      { prompt := "", readRes := Except.error ReadlineError.eof, modeNotifyOk := true,
        busHasSubscribers := true, wait := { closed := false, quitWhileRaw := false },
        sinkOk := true }).fst ≠ Outcome.exit { history := [] } := by
  exact ⟨by decide, by decide⟩

/-- Claim C3 (amended): every line-read error — reader termination
included — causes a retry of the loop iteration with the state unchanged;
no read error makes the Input Task exit. -/
theorem read_error_always_retries (b : Bool) (ed : Editor) (env : LineEnv)
    (e : ReadlineError)
    (hm : env.modeNotifyOk = true) (hr : env.readRes = Except.error e) :
    lineIter b ed env =
      (Outcome.next b ed, [Effect.modeNotify false, Effect.readLineCall env.prompt]) := by
  simp [lineIter, hm, hr, read_line]

/-- Claim C3 witness: the amended theorem instantiated at an `Eof` error. -/
theorem read_error_always_retries_witness :
    lineIter false { history := [] }
      { prompt := "p", readRes := Except.error ReadlineError.eof, modeNotifyOk := true,
        busHasSubscribers := true, wait := { closed := false, quitWhileRaw := false },
        sinkOk := true } =
      (Outcome.next false { history := [] },
       [Effect.modeNotify false, Effect.readLineCall "p"]) :=
  read_error_always_retries false { history := [] }
    { prompt := "p", readRes := Except.error ReadlineError.eof, modeNotifyOk := true,
      busHasSubscribers := true, wait := { closed := false, quitWhileRaw := false },
      sinkOk := true } ReadlineError.eof rfl rfl

/-- Claim C6 (failing input): entering `back` in line mode while the
Control Signal Bus has zero subscribers makes the `quit` broadcast fail and
the Input Task panic on the `unwrap` at `connection.rs:179` — it does not
continue the pause protocol (no `waitStart` effect follows the failed
broadcast). -/
theorem quit_send_zero_subscribers_panics :
    lineIter false { history := [] }
      { prompt := "", readRes := Except.ok "back", modeNotifyOk := true,
        busHasSubscribers := false, wait := { closed := false, quitWhileRaw := false },
        sinkOk := true } =
      (Outcome.panicked { history := ["back"] },
       [Effect.modeNotify false, Effect.readLineCall "", Effect.printClear,
        Effect.broadcastQuit]) := by
  decide

/-- Claim C4 (counterexample): the entered line `"  back"` has trimmed text
`back` (leading whitespace removed), yet the detach gesture does not fire:
the iteration broadcasts no `quit` and forwards `"  back\n"` to the sink,
because the code compares `content.trim_end()` — trailing trim only —
against `back`. -/
theorem leading_ws_back_no_detach :
    trim_both "  back" = "back" ∧
    Effect.broadcastQuit ∉ (lineIter false { history := [] }
      { prompt := "", readRes := Except.ok "  back", modeNotifyOk := true,
        busHasSubscribers := true, wait := { closed := false, quitWhileRaw := false },
        sinkOk := true }).snd ∧
    sinkSends (lineIter false { history := [] }
      { prompt := "", readRes := Except.ok "  back", modeNotifyOk := true,
        busHasSubscribers := true, wait := { closed := false, quitWhileRaw := false },
        sinkOk := true }).snd = ["  back\n"] := by
  exact ⟨by decide, by decide, by decide⟩

/-- Claim C4 (amended): in line mode the detach protocol is triggered
exactly when the entered content with its trailing whitespace removed
(Rust `trim_end`) equals `back`; lines with leading whitespace before
`back` do not trigger it, lines with only trailing whitespace do. -/
theorem detach_iff_trim_end_back (b : Bool) (ed : Editor) (env : LineEnv)
    (line : String)
    (hm : env.modeNotifyOk = true) (hr : env.readRes = Except.ok line) :
    (Effect.broadcastQuit ∈ (lineIter b ed env).snd ↔
      trim_end (line ++ "\n") = "back") := by
  simp only [lineIter, hm, hr, read_line, add_history_entry, Bool.true_eq_false, if_false]
  by_cases hc : trim_end (line ++ "\n") = "back"
  · rw [if_pos hc]
    refine iff_of_true ?_ hc
    split
    · simp
    · split
      · simp
      · split <;> simp
  · rw [if_neg hc]
    refine iff_of_false ?_ hc
    split <;> simp

/-- Claim C4 witness: the amended theorem applied to the line `"back "`
(trailing whitespace only), whose end-trimmed text equals `back`, so the
`quit` broadcast appears among the iteration effects. -/
theorem detach_iff_trim_end_back_witness :
    Effect.broadcastQuit ∈ (lineIter false { history := [] }
      { prompt := "", readRes := Except.ok "back ", modeNotifyOk := true,
        busHasSubscribers := true, wait := { closed := false, quitWhileRaw := false },
        sinkOk := true }).snd :=
  (detach_iff_trim_end_back false { history := [] }
    { prompt := "", readRes := Except.ok "back ", modeNotifyOk := true,
      busHasSubscribers := true, wait := { closed := false, quitWhileRaw := false },
      sinkOk := true } "back " rfl rfl).mpr (by decide)

/-- `splitNl` never returns the empty list of segments (Rust `split` always
yields at least one item). -/
theorem splitNl_ne_nil (l : List Char) : splitNl l ≠ [] := by
  cases l with
  | nil => simp [splitNl]
  | cons c rest =>
    simp only [splitNl]
    split
    · simp
    · split <;> simp

/-- A character list without a newline is split into the single segment
consisting of the whole list. -/
theorem splitNl_no_nl (l : List Char) (h : '\n' ∉ l) : splitNl l = [l] := by
  induction l with
  | nil => rfl
  | cons c rest ih =>
    simp only [List.mem_cons, not_or] at h
    obtain ⟨h1, h2⟩ := h
    have hc : ¬ c = '\n' := fun e => h1 e.symm
    simp only [splitNl, if_neg hc, ih h2]

/-- A character list containing a newline is split into at least two
segments. -/
theorem splitNl_two_le (l : List Char) (h : '\n' ∈ l) : 2 ≤ (splitNl l).length := by
  induction l with
  | nil => cases h
  | cons c rest ih =>
    by_cases hc : c = '\n'
    · have hpos : 0 < (splitNl rest).length :=
        List.length_pos.mpr (splitNl_ne_nil rest)
      simp only [splitNl, if_pos hc, List.length_cons]
      omega
    · have hr : '\n' ∈ rest := by
        rcases List.mem_cons.mp h with h' | h'
        · exact absurd h'.symm hc
        · exact h'
      simp only [splitNl, if_neg hc]
      cases heq : splitNl rest with
      | nil => exact absurd heq (splitNl_ne_nil rest)
      | cons seg segs =>
        have := ih hr
        rw [heq] at this
        simpa using this

/-- Prepending an element to a nonempty list leaves `getLast?` unchanged. -/
theorem getLast?_cons_ne_nil {α : Type} (a : α) (l : List α) (h : l ≠ []) :
    (a :: l).getLast? = l.getLast? := by
  cases l with
  | nil => exact absurd rfl h
  | cons b bs => exact List.getLast?_cons_cons

/-- The last segment of `splitNl` on `l1 ++ '\n' :: l2` with `l2` free of
newlines is `l2`: the text following the last newline. -/
theorem splitNl_getLast (l1 l2 : List Char) (h : '\n' ∉ l2) :
    (splitNl (l1 ++ '\n' :: l2)).getLast? = some l2 := by
  induction l1 with
  | nil =>
    rw [List.nil_append]
    simp only [splitNl, if_pos rfl, splitNl_no_nl l2 h]
    rfl
  | cons c l1 ih =>
    rw [List.cons_append]
    by_cases hc : c = '\n'
    · simp only [splitNl, if_pos hc]
      rw [getLast?_cons_ne_nil _ _ (splitNl_ne_nil _)]
      exact ih
    · have h2 : 2 ≤ (splitNl (l1 ++ '\n' :: l2)).length :=
        splitNl_two_le _ (by simp)
      cases heq : splitNl (l1 ++ '\n' :: l2) with
      | nil => exact absurd heq (splitNl_ne_nil _)
      | cons s ss =>
        cases ss with
        | nil => rw [heq] at h2; simp at h2
        | cons s2 ss2 =>
          simp only [splitNl, if_neg hc, heq]
          rw [List.getLast?_cons_cons]
          rw [heq, List.getLast?_cons_cons] at ih
          exact ih

/-- Claim C5 (counterexample): in raw mode the rendered output for the
socket text `"abc"` contains no newline, yet the published prompt is the
whole rendered output `"abc"`, not the empty string: Rust
`split("\n").last()` on a newline-free string yields the whole string, so
the `None => ""` arm of the code is dead. -/
theorem prompt_no_newline_whole_output :
    derivePrompt (renderOutput true "abc") = "abc" ∧
    derivePrompt (renderOutput true "abc") ≠ "" ∧
    '\n' ∉ (renderOutput true "abc").data := by
  exact ⟨by decide, by decide, by decide⟩

/-- Claim C5 (amended): the prompt published by the Output Task is the text
following the last newline of the rendered output when the output contains
a newline, and is the entire rendered output when it contains none. -/
theorem prompt_is_text_after_last_newline :
    (∀ (b : Bool) (resp : String) (l1 l2 : List Char),
      (renderOutput b resp).data = l1 ++ '\n' :: l2 → '\n' ∉ l2 →
      derivePrompt (renderOutput b resp) = String.mk l2) ∧
    (∀ (b : Bool) (resp : String), '\n' ∉ (renderOutput b resp).data →
      derivePrompt (renderOutput b resp) = renderOutput b resp) := by
  constructor
  · intro b resp l1 l2 hdec hnl
    unfold derivePrompt
    rw [hdec, splitNl_getLast l1 l2 hnl]
  · intro b resp h
    unfold derivePrompt
    rw [splitNl_no_nl _ h]
    rfl

/-- Claim C5 witness: the amended theorem applied to rendered output
`"hello\nabc> "`, whose published prompt is exactly `"abc> "`. -/
theorem prompt_is_text_after_last_newline_witness :
    derivePrompt (renderOutput true "hello\nabc> ") = String.mk "abc> ".data :=
  prompt_is_text_after_last_newline.1 true "hello\nabc> " "hello".data "abc> ".data
    (by decide) (by decide)

/-- Claim C9: an Output Task iteration ends the task exactly when the task
is inactive and the control bus is closed while it waits for `start`; in
particular an active iteration handling socket output whose prompt publish
fails, or a mode notification on a closed channel, continues with the task
still active. -/
theorem output_task_exit_only_on_bus_closed (st : OutState) (w : WaitOracle)
    (ev : OutEvent) :
    ((outputIter st w ev).fst = none ↔ (st.active = false ∧ w.closed = true)) ∧
    (∀ resp : String,
      (outputIter { active := true, raw_mode := st.raw_mode } w
          (OutEvent.socketOutput resp false)).fst =
        some { active := true, raw_mode := st.raw_mode }) ∧
    ((outputIter { active := true, raw_mode := st.raw_mode } w
        (OutEvent.modeNotify none)).fst =
      some { active := true, raw_mode := st.raw_mode }) := by
  refine ⟨?_, fun resp => rfl, rfl⟩
  obtain ⟨a, r⟩ := st
  obtain ⟨wc, wq⟩ := w
  cases a <;> cases wc <;>
    cases ev with
    | socketOutput resp pubOk => simp [outputIter, wait_for_signal]
    | quitSignal => simp [outputIter, wait_for_signal]
    | modeNotify m => cases m <;> simp [outputIter, wait_for_signal]

/-- In line mode the Input Task never issues a raw key read: no effect list
produced by `lineIter` contains `readKeyCall`. -/
theorem lineIter_no_readKey (b : Bool) (ed : Editor) (env : LineEnv) :
    Effect.readKeyCall ∉ (lineIter b ed env).snd := by
  unfold lineIter
  split
  · simp
  · split
    · simp
    · split
      · split
        · simp
        · split
          · simp
          · split <;> simp
      · split <;> simp

/-- Claim C10: a fresh `Handle` has `raw_mode = false`; the initial `start`
wait cannot turn the flag on (the modelled `wait_for_signal` only ever
deactivates it), so the first Input Task iteration dispatches to the
line-mode branch and performs no raw key read. -/
theorem handle_new_starts_line_mode :
    Handle.new.fst.raw_mode = false ∧
    (∀ w : WaitOracle, w.closed = false →
      wait_for_signal w Handle.new.fst.raw_mode = some false) ∧
    (∀ (ed : Editor) (lenv : LineEnv) (renv : RawEnv),
      inputIter Handle.new.fst.raw_mode ed lenv renv = lineIter false ed lenv ∧
      Effect.readKeyCall ∉ (inputIter Handle.new.fst.raw_mode ed lenv renv).snd) := by
  refine ⟨rfl, ?_, ?_⟩
  · intro w hw
    simp [wait_for_signal, hw, Handle.new]
  · intro ed lenv renv
    refine ⟨rfl, ?_⟩
    exact lineIter_no_readKey false ed lenv

/-- Claim C10 witness: the theorem instantiated at a concrete open-bus wait
oracle and a concrete line environment. -/
theorem handle_new_starts_line_mode_witness :
    wait_for_signal { closed := false, quitWhileRaw := false } Handle.new.fst.raw_mode =
      some false ∧
    inputIter Handle.new.fst.raw_mode { history := [] }
      { prompt := "", readRes := Except.ok "hi", modeNotifyOk := true,
        busHasSubscribers := true, wait := { closed := false, quitWhileRaw := false },
        sinkOk := true }
      { event := none, modeNotifyOk := true, busHasSubscribers := true,
        wait := { closed := false, quitWhileRaw := false }, sinkOk := true } =
      lineIter false { history := [] }
        { prompt := "", readRes := Except.ok "hi", modeNotifyOk := true,
          busHasSubscribers := true, wait := { closed := false, quitWhileRaw := false },
          sinkOk := true } :=
  ⟨handle_new_starts_line_mode.2.1 { closed := false, quitWhileRaw := false } rfl,
   (handle_new_starts_line_mode.2.2 { history := [] }
      { prompt := "", readRes := Except.ok "hi", modeNotifyOk := true,
        busHasSubscribers := true, wait := { closed := false, quitWhileRaw := false },
        sinkOk := true }
      { event := none, modeNotifyOk := true, busHasSubscribers := true,
        wait := { closed := false, quitWhileRaw := false }, sinkOk := true }).1⟩
